import Mathlib

/-!
# Verification of the Vimle challenge-generation pipeline

Shallow embedding of the challenge-generation pipeline of the Vimle
repository: the date→difficulty schedulers, the static fallback pool, the
Gemini error classifier, the retrying orchestrator, and the multi-strategy
response parser.  Machine integers are modelled as `Int`/`Nat` with explicit
wrapping to the signed 32-bit range where the JavaScript source performs
32-bit coercions; JavaScript `%` on a possibly negative left operand is
modelled with `Int.tmod` (truncated remainder, the JS semantics); thrown
exceptions are modelled with `Except`.
-/

namespace Vimle

set_option maxRecDepth 100000

/-- Difficulty levels (`DifficultyLevel` in `src/types/index.ts`). -/
inductive Difficulty where
  | easy
  | medium
  | hard
deriving DecidableEq, Repr

/-- Printed name of a difficulty, as used in ids and messages. -/
def Difficulty.name : Difficulty → String
  | .easy => "easy"
  | .medium => "medium"
  | .hard => "hard"

/-! ## 32-bit hashing (`hashString`, `getDifficultyForDate`)

The JS source computes `hash = (hash << 5) - hash + char; hash = hash & hash`
over the UTF-16 code units of the string.  `<<` and `&` coerce to signed
32-bit (`ToInt32`); the intermediate subtraction/addition is exact.  We model
code units by `Char.toNat` (exact for all characters below `0x10000`, which
covers every date string). -/

/-- JavaScript `ToInt32`: wrap an integer into `[-2^31, 2^31)`. -/
def toInt32 (n : Int) : Int := (n + 2 ^ 31) % 2 ^ 32 - 2 ^ 31

/-- One iteration of the rolling-hash loop from the source:
`hash = (hash << 5) - hash + char; hash = hash & hash`. -/
def jsHashStep (h : Int) (c : Nat) : Int := toInt32 (toInt32 (h * 32) - h + c)

/-- The signed 32-bit rolling hash of a string, before `Math.abs`
(the loop body shared by `hashString` and `getDifficultyForDate`). -/
def jsHash (s : String) : Int := s.data.foldl (fun h c => jsHashStep h c.toNat) 0

/-- The `hashString` from the orchestrator and the challenge service:
`Math.abs` of the 32-bit rolling hash. -/
def hashString (s : String) : Nat := (jsHash s).natAbs

/-- The hash update exactly as the specification words it:
`hash = hash*31 + charCode`, wrapped to signed 32-bit.  Written from the
spec sentence, to be compared with the source-derived `jsHashStep`. -/
def specHashStep (h : Int) (c : Nat) : Int := toInt32 (h * 31 + c)

/-- The polynomial rolling hash as the specification describes it. -/
def specRollingHash (s : String) : Int :=
  s.data.foldl (fun h c => specHashStep h c.toNat) 0

/-- The `getDifficultyForDate` from the AI-generation orchestrator
(`src/unnamed/part_014`): reduce `Math.abs(hash)` modulo 10 and bucket
`[0,4) → easy`, `[4,8) → medium`, `[8,10) → hard`. -/
def getDifficultyForDate (date : String) : Difficulty :=
  let hash := jsHash date
  let absHash := hash.natAbs
  let m := absHash % 10
  if m < 4 then .easy else if m < 8 then .medium else .hard

/-- Difficulty weights of the challenge service (`src/unnamed/part_003`).
The JS numbers `0.4 / 0.4 / 0.2` are modelled as rationals; at the
thresholds `400` and `800` the double-precision comparisons of the source
agree with the exact rational ones. -/
structure DifficultyWeights where
  easy : ℚ
  medium : ℚ
  hard : ℚ
deriving DecidableEq, Repr

/-- The `DEFAULT_CONFIG.difficultyWeights` from the challenge service. -/
def defaultWeights : DifficultyWeights :=
  { easy := 4 / 10, medium := 4 / 10, hard := 2 / 10 }

/-- The `getDifficultyForDate` from the challenge service
(`src/unnamed/part_003`): normalize `hashString date % 1000` to `[0,1)` and
compare against the cumulative weights. -/
def getDifficultyForDateService (date : String) (weights : DifficultyWeights) :
    Difficulty :=
  let hash := hashString date
  let random : ℚ := ((hash % 1000 : ℕ) : ℚ) / 1000
  if random < weights.easy then .easy
  else if random < weights.easy + weights.medium then .medium
  else .hard

/-! ## Static challenge pool (`src/lib/challenge/static-pool.ts`) -/

/-- A static pool entry: `{ content, title }` (note: no starting content). -/
structure StaticChallenge where
  content : String
  title : String
deriving DecidableEq, Repr

/-- The `STATIC_CHALLENGE_POOL`, transcribed entry by entry from the source. -/
def STATIC_CHALLENGE_POOL : Difficulty → List StaticChallenge
  | .easy =>
    [ { content := "function hello() \x7b\n  console.log(\"Hello, World!\");\n\x7d",
        title := "Basic Function - Hello World" },
      { content := "const sum = (a, b) => \x7b\n  return a + b;\n\x7d;",
        title := "Arrow Function - Sum" },
      { content := "for (let i = 0; i < 5; i++) \x7b\n  console.log(i);\n\x7d",
        title := "Simple Loop" },
      { content := "const greeting = \"Hello\";\nconst name = \"World\";\nconsole.log(greeting + \" \" + name);",
        title := "Variables and String Concatenation" },
      { content := "function isEven(num) \x7b\n  return num % 2 === 0;\n\x7d",
        title := "Simple Function - Even Check" },
      { content := "const numbers = [1, 2, 3, 4, 5];\nconsole.log(numbers.length);",
        title := "Array Basics" } ]
  | .medium =>
    [ { content := "function fibonacci(n) \x7b\n  if (n <= 1) return n;\n  return fibonacci(n - 1) + fibonacci(n - 2);\n\x7d",
        title := "Recursive Function - Fibonacci" },
      { content := "const factorial = (n) => \x7b\n  if (n === 0) return 1;\n  return n * factorial(n - 1);\n\x7d;",
        title := "Recursive Function - Factorial" },
      { content := "function isPrime(num) \x7b\n  if (num <= 1) return false;\n  for (let i = 2; i < num; i++) \x7b\n    if (num % i === 0) return false;\n  \x7d\n  return true;\n\x7d",
        title := "Algorithm - Prime Number Check" },
      { content := "function findMax(arr) \x7b\n  let max = arr[0];\n  for (let i = 1; i < arr.length; i++) \x7b\n    if (arr[i] > max) \x7b\n      max = arr[i];\n    \x7d\n  \x7d\n  return max;\n\x7d",
        title := "Array Processing - Find Maximum" },
      { content := "const person = \x7b\n  name: \"John\",\n  age: 30,\n  greet() \x7b\n    return `Hello, I\x27m $\x7bthis.name\x7d`;\n  \x7d\n\x7d;",
        title := "Object with Method" },
      { content := "function reverseString(str) \x7b\n  let reversed = \"\";\n  for (let i = str.length - 1; i >= 0; i--) \x7b\n    reversed += str[i];\n  \x7d\n  return reversed;\n\x7d",
        title := "String Manipulation - Reverse" } ]
  | .hard =>
    [ { content := "function quickSort(arr) \x7b\n  if (arr.length <= 1) return arr;\n  const pivot = arr[Math.floor(arr.length / 2)];\n  const left = arr.filter(x => x < pivot);\n  const right = arr.filter(x => x > pivot);\n  return [...quickSort(left), pivot, ...quickSort(right)];\n\x7d",
        title := "Algorithm - Quick Sort" },
      { content := "class BinaryTree \x7b\n  constructor(value) \x7b\n    this.value = value;\n    this.left = null;\n    this.right = null;\n  \x7d\n  \n  insert(value) \x7b\n    if (value < this.value) \x7b\n      this.left = this.left ? this.left.insert(value) : new BinaryTree(value);\n    \x7d else \x7b\n      this.right = this.right ? this.right.insert(value) : new BinaryTree(value);\n    \x7d\n    return this;\n  \x7d\n\x7d",
        title := "Data Structure - Binary Tree" },
      { content := "function memoize(fn) \x7b\n  const cache = \x7b\x7d;\n  return function(...args) \x7b\n    const key = JSON.stringify(args);\n    if (key in cache) \x7b\n      return cache[key];\n    \x7d\n    const result = fn.apply(this, args);\n    cache[key] = result;\n    return result;\n  \x7d;\n\x7d",
        title := "Higher-Order Function - Memoization" },
      { content := "class EventEmitter \x7b\n  constructor() \x7b\n    this.events = \x7b\x7d;\n  \x7d\n  \n  on(event, listener) \x7b\n    if (!this.events[event]) \x7b\n      this.events[event] = [];\n    \x7d\n    this.events[event].push(listener);\n  \x7d\n  \n  emit(event, ...args) \x7b\n    if (this.events[event]) \x7b\n      this.events[event].forEach(listener => listener(...args));\n    \x7d\n  \x7d\n\x7d",
        title := "Design Pattern - Event Emitter" },
      { content := "function debounce(func, wait) \x7b\n  let timeout;\n  return function executedFunction(...args) \x7b\n    const later = () => \x7b\n      clearTimeout(timeout);\n      func(...args);\n    \x7d;\n    clearTimeout(timeout);\n    timeout = setTimeout(later, wait);\n  \x7d;\n\x7d",
        title := "Utility Function - Debounce" },
      { content := "async function asyncReduce(array, callback, initialValue) \x7b\n  let accumulator = initialValue;\n  for (const item of array) \x7b\n    accumulator = await callback(accumulator, item);\n  \x7d\n  return accumulator;\n\x7d",
        title := "Async Programming - Reduce" } ]

instance exceptDecEq {ε α : Type} [DecidableEq ε] [DecidableEq α] :
    DecidableEq (Except ε α) := fun
  | .ok a, .ok b =>
    if h : a = b then isTrue (by rw [h])
    else isFalse (by intro he; cases he; exact h rfl)
  | .ok _, .error _ => isFalse (by intro h; cases h)
  | .error _, .ok _ => isFalse (by intro h; cases h)
  | .error e, .error f =>
    if h : e = f then isTrue (by rw [h])
    else isFalse (by intro he; cases he; exact h rfl)

/-- JavaScript array indexing `a[i]`: an element for `0 ≤ i < a.length`,
`undefined` (modelled `none`) otherwise. -/
def jsArrayGet (l : List α) (i : Int) : Option α :=
  if 0 ≤ i then l.get? i.toNat else none

/-- Body of `getChallengeFromPool`, parametrized by the pool list the source
reads from the `STATIC_CHALLENGE_POOL` record (`dname` is the difficulty
printed name, used in the thrown message).  JavaScript `%` is truncated
remainder, hence `Int.tmod`; a thrown `Error` is `.error`, and an
out-of-range access producing `undefined` is `.ok none`. -/
def getChallengeFromPoolCore (dname : String) (pool : List StaticChallenge)
    (index : Int) : Except String (Option StaticChallenge) :=
  if pool.length = 0 then
    .error ("No challenges available for difficulty: " ++ dname)
  else
    let normalizedIndex := Int.tmod index pool.length
    .ok (jsArrayGet pool normalizedIndex)

/-- The `getChallengeFromPool(difficulty, index)` from `static-pool.ts`. -/
def getChallengeFromPool (difficulty : Difficulty) (index : Int) :
    Except String (Option StaticChallenge) :=
  getChallengeFromPoolCore difficulty.name (STATIC_CHALLENGE_POOL difficulty) index

/-! ## Orchestrator result types (`src/unnamed/part_014`) -/

/-- The `DailyChallenge` (`src/lib/challenge/types.ts`); `startingContent` is an
optional field, absent (`none`) when an object is built without it. -/
structure DailyChallenge where
  id : String
  date : String
  startingContent : Option String
  content : String
  title : String
  difficulty : Difficulty
deriving DecidableEq, Repr

/-- Provenance tag (`generatedBy` in `GenerationResult`). -/
inductive GeneratedBy where
  | gemini
  | static
deriving DecidableEq, Repr

/-- The `GenerationResult.metadata`. -/
structure GenMetadata where
  generationTimeMs : Option Nat
  retryAttempts : Option Nat
  usedFallback : Option Bool
deriving DecidableEq, Repr

/-- The `GenerationResult` from the orchestrator. -/
structure GenerationResult where
  challenge : DailyChallenge
  promptUsed : String
  generatedBy : GeneratedBy
  metadata : Option GenMetadata
deriving DecidableEq, Repr

/-- The `generateStaticFallback(date, difficulty)` from the orchestrator: index
the pool with `hashString date` and build the result.  The built challenge
object has no `startingContent` property.  A JS `TypeError` from reading a
field of `undefined` (unreachable: the index is nonnegative) is `.error`. -/
def generateStaticFallback (date : String) (difficulty : Difficulty) :
    Except String GenerationResult :=
  let challengeIndex : Int := hashString date
  match getChallengeFromPool difficulty challengeIndex with
  | .error e => .error e
  | .ok none => .error "TypeError: undefined pool entry"
  | .ok (some staticChallenge) =>
    .ok
      { challenge :=
          { id := date ++ "-static-" ++ difficulty.name
            date := date
            startingContent := none
            content := staticChallenge.content
            title := staticChallenge.title
            difficulty := difficulty }
        promptUsed :=
          "Static challenge for " ++ difficulty.name ++ " difficulty on " ++ date
        generatedBy := .static
        metadata :=
          some { generationTimeMs := none, retryAttempts := none,
                 usedFallback := some true } }

/-! ## Gemini error classes (`src/lib/ai-generation/gemini` errors module) -/

/-- The closed set of error codes. -/
inductive GeminiErrorCode where
  | RATE_LIMIT
  | INVALID_RESPONSE
  | API_ERROR
  | DISABLED
  | VALIDATION_ERROR
  | QUOTA_EXCEEDED
  | NETWORK_ERROR
  | TIMEOUT_ERROR
deriving DecidableEq, Repr

/-- Which concrete error subclass an error was constructed with, together
with the subclass-specific field (`retryAfter` / `rawResponse` /
`validationDetails`). -/
inductive GeminiErrSub where
  | base
  | rateLimit (retryAfter : Option Nat)
  | response (rawResponse : Option String)
  | validation (validationDetails : List String)
deriving DecidableEq, Repr

/-- The `GeminiGenerationError` and its subclasses, flattened into a record with
a subclass discriminant. -/
structure GeminiGenerationError where
  message : String
  code : GeminiErrorCode
  retryable : Bool
  sub : GeminiErrSub
deriving DecidableEq, Repr

/-- JavaScript truthiness of `number | undefined`: `0` and `undefined` are
falsy. -/
def jsTruthyNat (o : Option Nat) : Bool :=
  match o with
  | some n => n != 0
  | none => false

namespace createGeminiError

/-- The `createGeminiError.rateLimit`. -/
def rateLimit (retryAfter : Option Nat) : GeminiGenerationError :=
  { message := "API rate limit exceeded" ++
      (if jsTruthyNat retryAfter then
        ". Retry after " ++ toString (retryAfter.getD 0) ++ " seconds"
      else "")
    code := .RATE_LIMIT
    retryable := true
    sub := .rateLimit retryAfter }

/-- The `createGeminiError.invalidResponse`; `parseError` carries the message of
the underlying parse error when present. -/
def invalidResponse (rawResponse : String) (parseError : Option String) :
    GeminiGenerationError :=
  { message := "Invalid JSON response from Gemini" ++
      (match parseError with
       | some m => ": " ++ m
       | none => "")
    code := .INVALID_RESPONSE
    retryable := true
    sub := .response (some rawResponse) }

/-- The `createGeminiError.validation`. -/
def validation (details : List String) : GeminiGenerationError :=
  { message := "Generated content failed validation: " ++
      String.intercalate ", " details
    code := .VALIDATION_ERROR
    retryable := true
    sub := .validation details }

/-- The `createGeminiError.apiError`. -/
def apiError (message : String) (retryable : Bool) : GeminiGenerationError :=
  { message := message, code := .API_ERROR, retryable := retryable,
    sub := .base }

/-- The `createGeminiError.network`. -/
def network (originalErrorMessage : String) : GeminiGenerationError :=
  { message := "Network error: " ++ originalErrorMessage
    code := .NETWORK_ERROR
    retryable := true
    sub := .base }

/-- The `createGeminiError.timeout`. -/
def timeout (timeoutMs : Nat) : GeminiGenerationError :=
  { message := "Request timed out after " ++ toString timeoutMs ++ "ms"
    code := .TIMEOUT_ERROR
    retryable := true
    sub := .base }

end createGeminiError

/-- Any value a JS `throw` can deliver to the orchestrator: a
`GeminiGenerationError`, a plain `Error` (with `name`, `message` and
constructor name), or a non-`Error` value. -/
inductive JsError where
  | gemini (e : GeminiGenerationError)
  | plain (name message ctorName : String)
  | nonError (payload : String)
deriving DecidableEq, Repr

/-- The `isRetryableError` from the errors module: only a
`GeminiGenerationError` can be retryable. -/
def isRetryableError (e : JsError) : Bool :=
  match e with
  | .gemini g => g.retryable
  | .plain _ _ _ => false
  | .nonError _ => false

/-- The `getRetryDelay`: rate-limit errors with a truthy `retryAfter` yield
`retryAfter * 1000` milliseconds; everything else `null`. -/
def getRetryDelay (e : JsError) : Option Nat :=
  match e with
  | .gemini g =>
    match g.sub with
    | .rateLimit (some n) => if n != 0 then some (n * 1000) else none
    | _ => none
  | _ => none

/-- JavaScript `toLowerCase`, modelled per character (exact for the ASCII
substrings the classifier tests). -/
def jsToLower (s : String) : String := ⟨s.data.map Char.toLower⟩

/-! ## Substring matching -/

/-- The `lpre pat s`: `pat` is a literal prefix of `s`. -/
def lpre : List Char → List Char → Bool
  | [], _ => true
  | _ :: _, [] => false
  | a :: as, b :: bs => a == b && lpre as bs

/-- The `hasSubstr pat s`: `pat` occurs contiguously somewhere in `s`
(JavaScript `String.prototype.includes`). -/
def hasSubstr (pat : List Char) : List Char → Bool
  | [] => lpre pat []
  | c :: cs => lpre pat (c :: cs) || hasSubstr pat cs

/-- JavaScript `haystack.includes(needle)`. -/
def strContains (s pat : String) : Bool := hasSubstr pat.data s.data

/-! ## Error classification (`GeminiChallengeService.handleUnknownError`) -/

/-- The lazy digit scan of `/retry.*?(\d+)/`: `.` does not cross a line
terminator, so scan the current line for the first digit run. -/
def digitsOnLine : List Char → Option Nat
  | [] => none
  | c :: cs =>
    if c = '\n' || c = '\r' then none
    else if c.isDigit then
      some (((c :: cs).takeWhile Char.isDigit).foldl
        (fun n d => n * 10 + (d.toNat - 48)) 0)
    else digitsOnLine cs

/-- Leftmost match of `pat` followed (on the same line) by a digit run, as
the regexes `/retry.*?(\d+)/i` and `/wait.*?(\d+)/i` find it. -/
def firstMatchDigits (pat : List Char) : List Char → Option Nat
  | [] => none
  | c :: cs =>
    match (if lpre pat (c :: cs) then digitsOnLine ((c :: cs).drop pat.length)
           else none) with
    | some n => some n
    | none => firstMatchDigits pat cs

/-- The `extractRetryAfter` from the service: the `/i` flag is modelled by
searching the lowercased message for the lowercase literals. -/
def extractRetryAfter (message : String) : Option Nat :=
  match firstMatchDigits "retry".data (jsToLower message).data with
  | some n => some n
  | none => firstMatchDigits "wait".data (jsToLower message).data

/-- The `handleUnknownError` for the `error instanceof Error` branch: the
ordered, first-match-wins substring classification.  `name` is only logged
by the source (`errorName` is computed but never tested); `ctorName` is
`error.constructor.name`, which is tested case-sensitively. -/
def handleUnknownError (modelName name message ctorName : String) :
    GeminiGenerationError :=
  let _errorName := jsToLower name
  let errorMessage := jsToLower message
  if strContains errorMessage "api_key" || strContains errorMessage "authentication"
      || strContains errorMessage "unauthorized" then
    createGeminiError.apiError
      "Invalid or missing API key. Please check your GEMINI_API_KEY environment variable."
      false
  else if strContains errorMessage "quota" || strContains errorMessage "rate"
      || strContains errorMessage "429" then
    createGeminiError.rateLimit (extractRetryAfter message)
  else if strContains errorMessage "model not found"
      || strContains errorMessage "invalid model" then
    createGeminiError.apiError
      ("Invalid model: " ++ modelName ++ ". Please check the model name in your configuration.")
      false
  else if strContains errorMessage "safety" || strContains errorMessage "blocked"
      || strContains errorMessage "harmful" then
    createGeminiError.apiError
      "Content was blocked by safety filters. Try modifying the prompt." true
  else if strContains errorMessage "network" || strContains errorMessage "fetch"
      || strContains errorMessage "timeout" || strContains errorMessage "enotfound"
      || strContains errorMessage "econnreset" then
    createGeminiError.network message
  else if strContains errorMessage "json" || strContains errorMessage "parse" then
    createGeminiError.invalidResponse "Failed to parse API response" (some message)
  else if strContains ctorName "Google" || strContains errorMessage "generativeai" then
    createGeminiError.apiError ("Google AI SDK Error: " ++ message) true
  else
    createGeminiError.apiError message true

/-- The disjunction of every substring test `handleUnknownError` performs,
in source order; `false` means the error falls through to the unclassified
default. -/
def matchesAnyPattern (message ctorName : String) : Bool :=
  strContains (jsToLower message) "api_key" || strContains (jsToLower message) "authentication"
    || strContains (jsToLower message) "unauthorized"
    || strContains (jsToLower message) "quota" || strContains (jsToLower message) "rate"
    || strContains (jsToLower message) "429"
    || strContains (jsToLower message) "model not found"
    || strContains (jsToLower message) "invalid model"
    || strContains (jsToLower message) "safety" || strContains (jsToLower message) "blocked"
    || strContains (jsToLower message) "harmful"
    || strContains (jsToLower message) "network" || strContains (jsToLower message) "fetch"
    || strContains (jsToLower message) "timeout" || strContains (jsToLower message) "enotfound"
    || strContains (jsToLower message) "econnreset"
    || strContains (jsToLower message) "json" || strContains (jsToLower message) "parse"
    || strContains ctorName "Google" || strContains (jsToLower message) "generativeai"

/-! ## Whitespace and trimming (JavaScript `trim` and the `\s` class) -/

/-- The characters JavaScript `trim`/`\s` treat as whitespace (the ASCII
ones plus NBSP, BOM and the Unicode line separators; other rare Unicode
space separators are omitted, none of which appear in the pipeline
inputs). -/
def jsWs (c : Char) : Bool :=
  c == ' ' || c == '\t' || c == '\n' || c == '\r' || c == '\x0b' || c == '\x0c'
    || c == ' ' || c == '﻿' || c == ' ' || c == ' '

/-- The `String.prototype.trim` on a character list. -/
def jsTrimList (l : List Char) : List Char :=
  ((l.dropWhile jsWs).reverse.dropWhile jsWs).reverse

/-- The `String.prototype.trim`. -/
def jsTrimStr (s : String) : String := ⟨jsTrimList s.data⟩

/-! ## Orchestrator (`src/unnamed/part_014`)

`generateWithRetries` drives the Gemini service inside a `while` loop.  The
service call is an external effect; we model one run by an injected outcome
per attempt index (`OrchestratorEnv.outcomes`), and instrument the loop with
the number of attempts actually performed (the first component of the
result).  The loop `while (attemptCount <= retries)` is translated
structurally on `remaining = retries + 1 - attemptCount`. -/

/-- A schema-validated Gemini response (`GeminiChallengeResponse`). -/
structure GeminiChallengeResponse where
  startingContent : String
  content : String
  title : String
  explanation : Option String
deriving DecidableEq, Repr

/-- The `ChallengeGenerationResult` returned by
`GeminiChallengeService.generateChallenge`. -/
structure ChallengeGenerationResult where
  response : GeminiChallengeResponse
  promptUsed : String
  generationTimeMs : Nat
deriving DecidableEq, Repr

/-- The outcome of one `service.generateChallenge` call: a result, or a
thrown error. -/
inductive AttemptOutcome where
  | ok (r : ChallengeGenerationResult)
  | err (e : JsError)

/-- The orchestrator environment: configuration flags and the injected
per-attempt service outcomes. -/
structure OrchestratorEnv where
  geminiEnabled : Bool
  enableFallback : Bool
  retryDelay : Nat
  outcomes : Nat → AttemptOutcome

/-- The success path of the loop body: convert the service result to the
orchestrator `GenerationResult` (`id`, trimmed contents, metadata with
`retryAttempts := attemptCount`). -/
def mkGeminiResult (date : String) (difficulty : Difficulty)
    (attemptCount : Nat) (r : ChallengeGenerationResult) : GenerationResult :=
  { challenge :=
      { id := date ++ "-gemini-" ++ difficulty.name
        date := date
        startingContent := some (jsTrimStr r.response.startingContent)
        content := jsTrimStr r.response.content
        title := r.response.title
        difficulty := difficulty }
    promptUsed := r.promptUsed
    generatedBy := .gemini
    metadata :=
      some { generationTimeMs := some r.generationTimeMs
             retryAttempts := some attemptCount
             usedFallback := none } }

/-- The `while (attemptCount <= retries)` loop of `generateWithRetries`:
`remaining` is `retries + 1 - attemptCount` (zero exactly when the loop
guard fails).  On success the loop returns; on a failure it retries when
`attemptCount + 1 <= retries` and the error is retryable, else it breaks
and the last error is thrown.  The first component counts the service
attempts performed. -/
def genLoop (env : OrchestratorEnv) (date : String) (difficulty : Difficulty)
    (retries : Nat) :
    Nat → Nat → Option JsError → Nat × Except JsError GenerationResult
  | 0, attemptCount, lastError =>
    (attemptCount,
      .error (lastError.getD (.plain "Error" "All generation attempts failed" "Error")))
  | remaining + 1, attemptCount, lastError =>
    match (if env.geminiEnabled then env.outcomes attemptCount
           else .err (.plain "Error" "No AI services available" "Error")) with
    | .ok r => (attemptCount + 1, .ok (mkGeminiResult date difficulty attemptCount r))
    | .err e =>
      if decide (attemptCount + 1 ≤ retries) && isRetryableError e then
        genLoop env date difficulty retries remaining (attemptCount + 1) (some e)
      else
        (attemptCount + 1, .error e)

/-- The `generateWithRetries(options)` with the retry budget made explicit. -/
def generateWithRetries (env : OrchestratorEnv) (date : String)
    (difficulty : Difficulty) (retries : Nat) :
    Nat × Except JsError GenerationResult :=
  genLoop env date difficulty retries (retries + 1) 0 none

/-- Embed the fallback thrown `Error` messages into `JsError`. -/
def staticToJs : Except String GenerationResult → Except JsError GenerationResult
  | .ok r => .ok r
  | .error m => .error (.plain "Error" m "Error")

/-- The `generateTodaysChallenge`: fall back immediately when no service is
enabled; otherwise run the retry loop and fall back on failure when
`enableFallback` is set, else rethrow.  The first component again counts
service attempts (zero on the immediate-fallback path). -/
def generateTodaysChallenge (env : OrchestratorEnv) (date : String)
    (difficulty : Difficulty) (retries : Nat) :
    Nat × Except JsError GenerationResult :=
  if !env.geminiEnabled then
    (0, staticToJs (generateStaticFallback date difficulty))
  else
    match generateWithRetries env date difficulty retries with
    | (n, .ok r) => (n, .ok r)
    | (n, .error e) =>
      if env.enableFallback then
        (n, staticToJs (generateStaticFallback date difficulty))
      else
        (n, .error e)

/-- A concrete injected failure sequence: two rate limits, one network
error, then success — the scenario named by the specification. -/
def envInjected : OrchestratorEnv :=
  { geminiEnabled := true
    enableFallback := true
    retryDelay := 1000
    outcomes := fun i =>
      if i < 2 then .err (.gemini (createGeminiError.rateLimit (some 2)))
      else if i = 2 then .err (.gemini (createGeminiError.network "fetch failed"))
      else .ok
        { response :=
            { startingContent := "const countt = 1;\nconsole.log(countt);"
              content := "const count = 1;\nconsole.log(count);"
              title := "Fix the variable name"
              explanation := none }
          promptUsed := "Generate a simple Vim editing practice challenge"
          generationTimeMs := 1200 } }

/-- An environment where every attempt fails with a retryable rate limit. -/
def envAllRateLimited : OrchestratorEnv :=
  { geminiEnabled := true
    enableFallback := true
    retryDelay := 1000
    outcomes := fun _ => .err (.gemini (createGeminiError.rateLimit none)) }

/-- An environment where every attempt throws an error the classifier marks
non-retryable (authentication). -/
def envAuthClassified : OrchestratorEnv :=
  { geminiEnabled := true
    enableFallback := true
    retryDelay := 1000
    outcomes := fun _ => .err (.gemini (handleUnknownError "gemini-1.5-flash"
      "Error" "Request failed: authentication required" "Error")) }

/-! ## Response parsing (`GeminiChallengeService.parseResponse`)

The source tries five extraction strategies in order, stopping at the first
truthy result, trims and de-comma-cleans the extracted text, runs
`JSON.parse`, and validates with `geminiChallengeResponseSchema`; any thrown
error is wrapped by the enclosing `catch` into
`createGeminiError.invalidResponse(text, error)`.

Regex modelling.  The four extraction regexes are literal-delimiter
patterns; leftmost-match with a lazy `[\s\S]*?` body is exactly "split at
the first occurrence of the opening literal, then at the first occurrence
of the closing literal in the remainder" (`splitOnFirst` below): if the
first opening occurrence has no closing occurrence after it, no later
opening occurrence has one either.  The greedy `/\{[\s\S]*\}/` spans from
the first `\x7b` that precedes the last `\x7d`. -/

/-- Split `s` at the first (leftmost) occurrence of `pat`:
`some (pre, post)` with `s = pre ++ pat ++ post` and no occurrence inside an
earlier position. -/
def splitOnFirst (pat : List Char) : List Char → Option (List Char × List Char)
  | [] => if lpre pat [] then some ([], ([] : List Char).drop pat.length) else none
  | c :: cs =>
    if lpre pat (c :: cs) then some ([], (c :: cs).drop pat.length)
    else
      match splitOnFirst pat cs with
      | some (pre, post) => some (c :: pre, post)
      | none => none

/-- Strategy 1: the regex `/(three backticks)json\n([\s\S]*?)\n(three backticks)/`. -/
def strat1 (s : List Char) : Option (List Char) :=
  match splitOnFirst "```json\n".data s with
  | none => none
  | some (_, rest) =>
    match splitOnFirst "\n```".data rest with
    | none => none
    | some (mid, _) => some mid

/-- Strategy 2: the generic fenced block `/(three backticks)\n([\s\S]*?)\n(three backticks)/`. -/
def strat2 (s : List Char) : Option (List Char) :=
  match splitOnFirst "```\n".data s with
  | none => none
  | some (_, rest) =>
    match splitOnFirst "\n```".data rest with
    | none => none
    | some (mid, _) => some mid

/-- Strategy 3: the fence without newlines `/(three backticks)json([\s\S]*?)(three backticks)/`. -/
def strat3 (s : List Char) : Option (List Char) :=
  match splitOnFirst "```json".data s with
  | none => none
  | some (_, rest) =>
    match splitOnFirst "```".data rest with
    | none => none
    | some (mid, _) => some mid

/-- Strategy 4: the greedy brace span `/\x7b[\s\S]*\x7d/`: from the first
opening brace before the last closing brace, through that closing brace. -/
def strat4 (s : List Char) : Option (List Char) :=
  match splitOnFirst ['\x7d'] s.reverse with
  | none => none
  | some (_, revBefore) =>
    match splitOnFirst ['\x7b'] revBefore.reverse with
    | none => none
    | some (_, inner) => some ('\x7b' :: (inner ++ ['\x7d']))

/-- The extraction loop: first truthy (non-`undefined`, non-empty)
strategy result wins; an empty string keeps looking. -/
def firstTruthy : List (Option (List Char)) → List Char
  | [] => []
  | none :: rest => firstTruthy rest
  | some x :: rest => if x.isEmpty then firstTruthy rest else x

/-- One global-replace pass of `,\s*c → c` (for `c` one of `\x7d` `]`),
JavaScript `String.prototype.replace` left-to-right non-overlapping
semantics; `fuel` bounds the recursion by the list length. -/
def replCC (close : Char) : Nat → List Char → List Char
  | 0, l => l
  | _ + 1, [] => []
  | fuel + 1, c :: cs =>
    if c == ',' then
      match cs.dropWhile jsWs with
      | d :: ds =>
        if d == close then close :: replCC close fuel ds
        else c :: replCC close fuel cs
      | [] => c :: replCC close fuel cs
    else c :: replCC close fuel cs

/-- The source defensive cleanup after extraction:
trim, drop trailing commas before `\x7d`, drop trailing commas before `]`. -/
def cleanupAfterExtract (l : List Char) : List Char :=
  let t := jsTrimList l
  let a := replCC '\x7d' t.length t
  replCC ']' a.length a

/-! ### JSON values and `JSON.parse` -/

/-- A decoded JSON value.  Numbers keep their lexeme (no value claim in
this development inspects a number numeric value). -/
inductive Json where
  | null
  | bool (b : Bool)
  | num (lexeme : String)
  | str (s : String)
  | arr (elems : List Json)
  | obj (fields : List (String × Json))

/-- JSON grammar whitespace. -/
def jWs (c : Char) : Bool := c == ' ' || c == '\t' || c == '\n' || c == '\r'

/-- Hexadecimal digit value. -/
def hexVal (c : Char) : Option Nat :=
  if '0' ≤ c && c ≤ '9' then some (c.toNat - 48)
  else if 'a' ≤ c && c ≤ 'f' then some (c.toNat - 87)
  else if 'A' ≤ c && c ≤ 'F' then some (c.toNat - 55)
  else none

/-- JSON string body after the opening quote: processes escapes, rejects
raw control characters, and combines `\uXXXX` surrogate pairs.  (A lone
surrogate, which JavaScript would keep as an unpaired UTF-16 unit, has no
`Char` representation and is modelled as a parse failure.) -/
def pStrChars : Nat → List Char → Option (List Char × List Char)
  | 0, _ => none
  | fuel + 1, l =>
    match l with
    | [] => none
    | '"' :: rest => some ([], rest)
    | '\\' :: e :: rest =>
      (match e, rest with
       | '"', _ => (pStrChars fuel rest).map (fun p => ('"' :: p.1, p.2))
       | '\\', _ => (pStrChars fuel rest).map (fun p => ('\\' :: p.1, p.2))
       | '/', _ => (pStrChars fuel rest).map (fun p => ('/' :: p.1, p.2))
       | 'b', _ => (pStrChars fuel rest).map (fun p => ('\x08' :: p.1, p.2))
       | 'f', _ => (pStrChars fuel rest).map (fun p => ('\x0c' :: p.1, p.2))
       | 'n', _ => (pStrChars fuel rest).map (fun p => ('\n' :: p.1, p.2))
       | 'r', _ => (pStrChars fuel rest).map (fun p => ('\r' :: p.1, p.2))
       | 't', _ => (pStrChars fuel rest).map (fun p => ('\t' :: p.1, p.2))
       | 'u', h1 :: h2 :: h3 :: h4 :: rest2 =>
         (match hexVal h1, hexVal h2, hexVal h3, hexVal h4 with
          | some a, some b, some c, some d =>
            let code := a * 4096 + b * 256 + c * 16 + d
            if code < 0xd800 || 0xdfff < code then
              (pStrChars fuel rest2).map
                (fun p => (Char.ofNat code :: p.1, p.2))
            else
              (match rest2 with
               | '\\' :: 'u' :: g1 :: g2 :: g3 :: g4 :: rest3 =>
                 (match hexVal g1, hexVal g2, hexVal g3, hexVal g4 with
                  | some a2, some b2, some c2, some d2 =>
                    let lo := a2 * 4096 + b2 * 256 + c2 * 16 + d2
                    if code ≤ 0xdbff && 0xdc00 ≤ lo && lo ≤ 0xdfff then
                      (pStrChars fuel rest3).map (fun p =>
                        (Char.ofNat (0x10000 + (code - 0xd800) * 1024 +
                          (lo - 0xdc00)) :: p.1, p.2))
                    else none
                  | _, _, _, _ => none)
               | _ => none)
          | _, _, _, _ => none)
       | _, _ => none)
    | c :: rest =>
      if c.toNat < 32 then none
      else (pStrChars fuel rest).map (fun p => (c :: p.1, p.2))

/-- JSON number token: `-? int frac? exp?`; returns the lexeme. -/
def pNumber (l : List Char) : Option (List Char × List Char) :=
  let isDigit : Char → Bool := fun c => '0' ≤ c && c ≤ '9'
  let intPart : List Char → Option (List Char × List Char) := fun l =>
    match l with
    | '0' :: rest => some (['0'], rest)
    | c :: rest =>
      if '1' ≤ c && c ≤ '9' then
        some (c :: rest.takeWhile isDigit, rest.dropWhile isDigit)
      else none
    | [] => none
  let fracPart : List Char → Option (List Char × List Char) := fun l =>
    match l with
    | '.' :: rest =>
      (match rest.takeWhile isDigit with
       | [] => none
       | ds => some ('.' :: ds, rest.dropWhile isDigit))
    | _ => some ([], l)
  let expPart : List Char → Option (List Char × List Char) := fun l =>
    match l with
    | c :: rest =>
      if c == 'e' || c == 'E' then
        (match rest with
         | s :: rest2 =>
           if s == '+' || s == '-' then
             (match rest2.takeWhile isDigit with
              | [] => none
              | ds => some (c :: s :: ds, rest2.dropWhile isDigit))
           else
             (match rest.takeWhile isDigit with
              | [] => none
              | ds => some (c :: ds, rest.dropWhile isDigit))
         | [] => none)
      else some ([], l)
    | [] => some ([], l)
  match l with
  | '-' :: rest =>
    (match intPart rest with
     | none => none
     | some (ip, r1) =>
       (match fracPart r1 with
        | none => none
        | some (fp, r2) =>
          (match expPart r2 with
           | none => none
           | some (ep, r3) => some ('-' :: (ip ++ fp ++ ep), r3))))
  | _ =>
    (match intPart l with
     | none => none
     | some (ip, r1) =>
       (match fracPart r1 with
        | none => none
        | some (fp, r2) =>
          (match expPart r2 with
           | none => none
           | some (ep, r3) => some (ip ++ fp ++ ep, r3))))

/-- The recursive-descent state: a value, the members of an object after
its opening brace, or the elements of an array after its opening bracket. -/
inductive JMode where
  | value
  | objFields (acc : List (String × Json))
  | arrElems (acc : List Json)

/-- The `JSON.parse` recursive descent, structural on `fuel` so that concrete
inputs evaluate inside the kernel. -/
def jrun : Nat → JMode → List Char → Option (Json × List Char)
  | 0, _, _ => none
  | fuel + 1, .value, l =>
    (match l.dropWhile jWs with
     | 'n' :: 'u' :: 'l' :: 'l' :: rest => some (.null, rest)
     | 't' :: 'r' :: 'u' :: 'e' :: rest => some (.bool true, rest)
     | 'f' :: 'a' :: 'l' :: 's' :: 'e' :: rest => some (.bool false, rest)
     | '"' :: rest => (pStrChars fuel rest).map (fun p => (.str ⟨p.1⟩, p.2))
     | '\x7b' :: rest =>
       (match rest.dropWhile jWs with
        | '\x7d' :: r2 => some (.obj [], r2)
        | _ => jrun fuel (.objFields []) rest)
     | '[' :: rest =>
       (match rest.dropWhile jWs with
        | ']' :: r2 => some (.arr [], r2)
        | _ => jrun fuel (.arrElems []) rest)
     | rest => (pNumber rest).map (fun p => (.num ⟨p.1⟩, p.2)))
  | fuel + 1, .objFields acc, l =>
    (match l.dropWhile jWs with
     | '"' :: rest =>
       (match pStrChars fuel rest with
        | none => none
        | some (key, r1) =>
          (match r1.dropWhile jWs with
           | ':' :: r2 =>
             (match jrun fuel .value r2 with
              | none => none
              | some (v, r3) =>
                (match r3.dropWhile jWs with
                 | ',' :: r4 => jrun fuel (.objFields (acc ++ [(⟨key⟩, v)])) r4
                 | '\x7d' :: r4 => some (.obj (acc ++ [(⟨key⟩, v)]), r4)
                 | _ => none))
           | _ => none))
     | _ => none)
  | fuel + 1, .arrElems acc, l =>
    (match jrun fuel .value l with
     | none => none
     | some (v, r1) =>
       (match r1.dropWhile jWs with
        | ',' :: r2 => jrun fuel (.arrElems (acc ++ [v])) r2
        | ']' :: r2 => some (.arr (acc ++ [v]), r2)
        | _ => none))

/-- The `JSON.parse`: a single value with only whitespace after it. -/
def jsonParse (s : String) : Option Json :=
  match jrun (2 * s.length + 2) .value s.data with
  | some (v, rest) => if (rest.dropWhile jWs).isEmpty then some v else none
  | none => none

/-! ### The Zod schema (`geminiChallengeResponseSchema`) -/

/-- Property lookup on an object decoded by `JSON.parse`: a later duplicate
key overwrites an earlier one. -/
def lookupField (fields : List (String × Json)) (key : String) : Option Json :=
  match fields.reverse.find? (fun p => p.1 == key) with
  | some p => some p.2
  | none => none

/-- The `z.string().min(minLen).max(maxLen).refine(trim nonempty)`: bounds are
inclusive, checked in chain order. -/
def zBoundedString (o : Option Json) (minLen maxLen : Nat)
    (minMsg maxMsg refineMsg : String) : Except String String :=
  match o with
  | some (.str s) =>
    if s.length < minLen then .error minMsg
    else if maxLen < s.length then .error maxMsg
    else if (jsTrimList s.data).isEmpty then .error refineMsg
    else .ok s
  | some _ => .error "Expected string"
  | none => .error "Required"

/-- The `geminiChallengeResponseSchema.parse` on a decoded value, field checks
in schema order. -/
def schemaParse (j : Json) : Except String GeminiChallengeResponse :=
  match j with
  | .obj fields =>
    match zBoundedString (lookupField fields "startingContent") 10 1000
      "Starting content must be at least 10 characters"
      "Starting content must be less than 1000 characters"
      "Starting content cannot be empty or only whitespace" with
    | .error e => .error e
    | .ok sc =>
      match zBoundedString (lookupField fields "content") 10 1000
        "Content must be at least 10 characters"
        "Content must be less than 1000 characters"
        "Content cannot be empty or only whitespace" with
      | .error e => .error e
      | .ok c =>
        match zBoundedString (lookupField fields "title") 5 100
          "Title must be at least 5 characters"
          "Title must be less than 100 characters"
          "Title cannot be empty or only whitespace" with
        | .error e => .error e
        | .ok t =>
          match lookupField fields "explanation" with
          | none =>
            .ok { startingContent := sc, content := c, title := t,
                  explanation := none }
          | some (.str ex) =>
            if 500 < ex.length then
              .error "Explanation must be less than 500 characters"
            else
              .ok { startingContent := sc, content := c, title := t,
                    explanation := some ex }
          | some _ => .error "Expected string"
  | _ => .error "Expected object"

/-! ### `parseResponse` -/

/-- The extraction phase of `parseResponse`: run the five strategies in
their fixed order, take the first truthy result, trim it. -/
def extractStep (tl : List Char) : List Char :=
  jsTrimList (firstTruthy [strat1 tl, strat2 tl, strat3 tl, strat4 tl, some tl])

/-- The phase of `parseResponse` after extraction, a function of the
trimmed extracted text alone: the `!jsonStr` guard, cleanup, `JSON.parse`
and schema validation.  Error strings stand for the messages of the errors
the source throws (the engine message of `JSON.parse` is a fixed placeholder —
no claim inspects it). -/
def pipelineAfter (jsonStr : List Char) : Except String GeminiChallengeResponse :=
  if jsonStr.isEmpty then .error "No JSON content found in response"
  else
    match jsonParse ⟨cleanupAfterExtract jsonStr⟩ with
    | none => .error "Unexpected token in JSON"
    | some j => schemaParse j

/-- The `parseResponse` up to the enclosing catch. -/
def parseResponsePipeline (text : String) : Except String GeminiChallengeResponse :=
  pipelineAfter (extractStep text.data)

/-- The `GeminiChallengeService.parseResponse`: any failure in the pipeline is
wrapped by the `catch` into `createGeminiError.invalidResponse(text, err)`. -/
def parseResponse (text : String) :
    Except GeminiGenerationError GeminiChallengeResponse :=
  match parseResponsePipeline text with
  | .ok v => .ok v
  | .error m => .error (createGeminiError.invalidResponse text (some m))

/-- Whether an `Except` is a success. -/
def exceptIsOk : Except ε α → Bool
  | .ok _ => true
  | .error _ => false

/-- A shape-valid JSON payload whose `content` field contains a fenced-block
marker, used to refute the three-wrappings claim. -/
def trickyPayload : String :=
  "\x7b\"startingContent\":\"let a = 111;\",\"content\":\"```json hello ```\",\"title\":\"Tricky one\"\x7d"

/-- A shape-valid payload with all fields in bounds. -/
def goodPayload : String :=
  "\x7b\"startingContent\":\"let aa = 111;\",\"content\":\"let a = 1111;\",\"title\":\"Edit the number\"\x7d"

/-- A payload whose title is below the 5-character minimum. -/
def shortTitlePayload : String :=
  "\x7b\"startingContent\":\"let aa = 111;\",\"content\":\"let a = 1111;\",\"title\":\"abc\"\x7d"

/-- A shape-valid, backtick-free payload whose `content` field ends in a
comma-space-brace sequence, so that the defensive trailing-comma cleanup
rewrites the field below its 10-character minimum. -/
def commaPayload : String :=
  "\x7b\"startingContent\":\"let a = 111;\",\"content\":\"abcdefg, \x7d\",\"title\":\"Valid title\"\x7d"

/-! ### Hash lemmas -/

theorem toInt32_add_mul (x k : Int) : toInt32 (x + k * 2 ^ 32) = toInt32 x := by
  unfold toInt32
  rw [add_right_comm, Int.add_mul_emod_self]

theorem toInt32_sub_self (y : Int) : ∃ q : Int, toInt32 y = y + q * 2 ^ 32 := by
  refine ⟨-((y + 2 ^ 31) / 2 ^ 32), ?_⟩
  unfold toInt32
  have h := Int.emod_add_ediv (y + 2 ^ 31) (2 ^ 32)
  have h31 : (2 : Int) ^ 31 = 2147483648 := by norm_num
  have h32 : (2 : Int) ^ 32 = 4294967296 := by norm_num
  rw [h31, h32] at h ⊢
  omega

theorem jsHashStep_eq_specHashStep (h : Int) (c : Nat) :
    jsHashStep h c = specHashStep h c := by
  unfold jsHashStep specHashStep
  obtain ⟨q, hq⟩ := toInt32_sub_self (h * 32)
  rw [hq]
  have : h * 32 + q * 2 ^ 32 - h + ↑c = h * 31 + ↑c + q * 2 ^ 32 := by ring
  rw [this, toInt32_add_mul]

theorem jsHash_eq_specRollingHash (s : String) : jsHash s = specRollingHash s := by
  unfold jsHash specRollingHash
  congr 1
  funext h c
  exact jsHashStep_eq_specHashStep h c.toNat

theorem natCast_div_lt_of_lt (n t : ℕ) (q : ℚ) (hq : q * 1000 = t) :
    ((n : ℚ) / 1000 < q) ↔ n < t := by
  rw [div_lt_iff₀ (by norm_num : (0 : ℚ) < 1000), hq]
  exact_mod_cast Iff.rfl

/-- C3: the orchestrator `getDifficultyForDate` computes exactly the
spec-described 32-bit polynomial rolling hash (`hash = hash*31 + charCode`
wrapped to signed 32-bit), reduces `|hash|` modulo 10, and buckets
`[0,4) → easy`, `[4,8) → medium`, `[8,10) → hard`.  As a Lean function of
the date string it is pure and total, so repeated calls agree by
definition. -/
theorem getDifficultyForDate_follows_spec_hash (d : String) :
    getDifficultyForDate d =
      (if (specRollingHash d).natAbs % 10 < 4 then Difficulty.easy
       else if (specRollingHash d).natAbs % 10 < 8 then Difficulty.medium
       else Difficulty.hard) := by
  unfold getDifficultyForDate
  rw [jsHash_eq_specRollingHash]

/-! ### Pool lemmas -/

theorem pool_ne_nil (difficulty : Difficulty) :
    STATIC_CHALLENGE_POOL difficulty ≠ [] := by
  cases difficulty <;> decide

/-- For a nonnegative index, `getChallengeFromPoolCore` on a non-empty pool
returns the entry at `index mod pool.length`. -/
theorem getChallengeFromPoolCore_nat (dname : String)
    (pool : List StaticChallenge) (i : ℕ) (h : pool ≠ []) :
    getChallengeFromPoolCore dname pool (i : Int) =
      .ok (pool.get? (i % pool.length)) := by
  have hlen : pool.length ≠ 0 := by
    simpa using List.length_pos.mpr h |>.ne'
  unfold getChallengeFromPoolCore jsArrayGet
  rw [if_neg hlen]
  have htmod : Int.tmod (i : Int) (pool.length : Int) =
      ((i % pool.length : ℕ) : Int) := (Int.ofNat_tmod i pool.length).symm
  simp only [htmod]
  rw [if_pos (by positivity)]
  norm_cast

/-- Each selected static entry is a pool member. -/
theorem generateStaticFallback_ok (date : String) (difficulty : Difficulty) :
    ∃ sc, sc ∈ STATIC_CHALLENGE_POOL difficulty ∧
      getChallengeFromPool difficulty (hashString date) = .ok (some sc) := by
  have h := getChallengeFromPoolCore_nat difficulty.name
    (STATIC_CHALLENGE_POOL difficulty) (hashString date) (pool_ne_nil difficulty)
  have hlt : hashString date % (STATIC_CHALLENGE_POOL difficulty).length <
      (STATIC_CHALLENGE_POOL difficulty).length :=
    Nat.mod_lt _ (List.length_pos.mpr (pool_ne_nil difficulty))
  refine ⟨(STATIC_CHALLENGE_POOL difficulty).get ⟨_, hlt⟩, List.get_mem _ _ _, ?_⟩
  unfold getChallengeFromPool
  rw [h, List.get?_eq_get hlt]

/-- The static fallback always succeeds and returns exactly the record the
source builds from the hash-selected pool entry. -/
theorem generateStaticFallback_spec (d : String) (difficulty : Difficulty) :
    ∃ sc, sc ∈ STATIC_CHALLENGE_POOL difficulty ∧
      getChallengeFromPool difficulty (hashString d) = .ok (some sc) ∧
      generateStaticFallback d difficulty = .ok
        { challenge :=
            { id := d ++ "-static-" ++ difficulty.name
              date := d
              startingContent := none
              content := sc.content
              title := sc.title
              difficulty := difficulty }
          promptUsed :=
            "Static challenge for " ++ difficulty.name ++ " difficulty on " ++ d
          generatedBy := .static
          metadata :=
            some { generationTimeMs := none, retryAttempts := none,
                   usedFallback := some true } } := by
  obtain ⟨sc, hmem, hpool⟩ := generateStaticFallback_ok d difficulty
  refine ⟨sc, hmem, hpool, ?_⟩
  simp only [generateStaticFallback]
  rw [hpool]

/-- C4: for a fixed date string and difficulty, the static-fallback path is
a pure function of its arguments: it always succeeds, the selected pool
entry is determined by the date hash alone, and two independent invocations
agree on the selected pool entry, title, content and challenge id (the
right-hand sides below are literally the same expressions, so any two runs
coincide). -/
theorem static_fallback_deterministic (d : String) (difficulty : Difficulty) :
    ∃ r sc, generateStaticFallback d difficulty = .ok r ∧
      getChallengeFromPool difficulty (hashString d) = .ok (some sc) ∧
      r.challenge.content = sc.content ∧ r.challenge.title = sc.title ∧
      r.challenge.id = d ++ "-static-" ++ difficulty.name ∧
      generateStaticFallback d difficulty = generateStaticFallback d difficulty := by
  obtain ⟨sc, _, hpool, hrun⟩ := generateStaticFallback_spec d difficulty
  exact ⟨_, sc, hrun, hpool, rfl, rfl, rfl, rfl⟩

/-- C5 (counterexample): at the integer index `-1` with the (non-empty) easy
pool, `getChallengeFromPool` does not wrap around: JavaScript computes
`-1 % 6 = -1` and the array access yields `undefined` (`.ok none`), not the
entry at the mathematical residue `5`. -/
theorem pool_negative_index_returns_undefined :
    getChallengeFromPool Difficulty.easy (-1) = .ok none ∧
      getChallengeFromPool Difficulty.easy (-1) ≠
        .ok ((STATIC_CHALLENGE_POOL Difficulty.easy).get? 5) := by
  constructor <;> decide

/-- C5 (amended): for every difficulty pool that is non-empty and every
NONNEGATIVE integer index, `getChallengeFromPool` returns the pool entry at
position `index mod pool.length` (wraparound, never out-of-range); for an
empty pool it throws a configuration error.  For a negative index whose
truncated remainder is negative the function instead returns `undefined`
(`.ok none`) — the behaviour that refutes the original "every integer
index" wording. -/
theorem getChallengeFromPool_wraparound :
    (∀ dname pool (i : ℕ), pool ≠ [] →
        getChallengeFromPoolCore dname pool (i : Int) =
          .ok (pool.get? (i % pool.length)))
    ∧ (∀ dname (i : Int),
        getChallengeFromPoolCore dname [] i =
          .error ("No challenges available for difficulty: " ++ dname))
    ∧ (∀ dname pool (i : Int), pool ≠ [] → Int.tmod i pool.length < 0 →
        getChallengeFromPoolCore dname pool i = .ok none) := by
  refine ⟨fun dname pool i h => getChallengeFromPoolCore_nat dname pool i h,
    fun dname i => by unfold getChallengeFromPoolCore; simp,
    fun dname pool i h hneg => ?_⟩
  have hlen : pool.length ≠ 0 := by
    simpa using List.length_pos.mpr h |>.ne'
  simp only [getChallengeFromPoolCore, jsArrayGet]
  rw [if_neg hlen, if_neg (by omega)]

/-- Witness for the wraparound theorem: index 7 into the six-element easy
pool selects entry `7 mod 6 = 1`; the empty pool throws; index `-5` yields
`undefined`. -/
theorem getChallengeFromPool_wraparound_witness :
    (getChallengeFromPoolCore "easy" (STATIC_CHALLENGE_POOL Difficulty.easy)
        ((7 : ℕ) : Int) =
      .ok ((STATIC_CHALLENGE_POOL Difficulty.easy).get?
        (7 % (STATIC_CHALLENGE_POOL Difficulty.easy).length)))
    ∧ (getChallengeFromPoolCore "easy" [] 3 =
        .error "No challenges available for difficulty: easy")
    ∧ (getChallengeFromPoolCore "easy" (STATIC_CHALLENGE_POOL Difficulty.easy)
        (-5) = .ok none) :=
  ⟨getChallengeFromPool_wraparound.1 "easy" _ 7 (by decide),
   getChallengeFromPool_wraparound.2.1 "easy" 3,
   getChallengeFromPool_wraparound.2.2 "easy" _ (-5) (by decide) (by decide)⟩

/-- C9 (counterexample): the challenge produced by the static fallback for
date `2024-01-01`, difficulty easy, carries no `startingContent` at all
(the source builds the `DailyChallenge` object without that property, and
pool entries have no starting content to begin with) — refuting the claim
that every returned challenge carries a non-empty 10–1000 character
`startingContent` differing from `content`. -/
theorem static_challenge_has_no_startingContent :
    (generateStaticFallback "2024-01-01" Difficulty.easy).toOption.map
        (fun r => r.challenge.startingContent) = some none := by
  decide

/-- C8: classification is ordered and first-match-wins.  A message
containing an authentication substring is classified non-retryable (as the
fixed API-key error) no matter which later-category substrings it also
contains; a message matching no pattern at all falls through to the
unclassified default `apiError(message, true)`, which is retryable. -/
theorem error_classification_first_match_wins
    (modelName name message ctorName : String) :
    (((strContains (jsToLower message) "api_key"
        || strContains (jsToLower message) "authentication"
        || strContains (jsToLower message) "unauthorized") = true) →
      handleUnknownError modelName name message ctorName =
        createGeminiError.apiError
          "Invalid or missing API key. Please check your GEMINI_API_KEY environment variable."
          false ∧
      (handleUnknownError modelName name message ctorName).retryable = false)
    ∧ (matchesAnyPattern message ctorName = false →
      handleUnknownError modelName name message ctorName =
        createGeminiError.apiError message true ∧
      (handleUnknownError modelName name message ctorName).retryable = true) := by
  constructor
  · intro h
    have he : handleUnknownError modelName name message ctorName =
        createGeminiError.apiError
          "Invalid or missing API key. Please check your GEMINI_API_KEY environment variable."
          false := by
      simp only [handleUnknownError]
      rw [h]
      rfl
    exact ⟨he, by rw [he]; rfl⟩
  · intro h
    simp only [matchesAnyPattern, Bool.or_eq_false_iff] at h
    obtain ⟨⟨⟨⟨⟨⟨⟨⟨⟨⟨⟨⟨⟨⟨⟨⟨⟨⟨⟨h1, h2⟩, h3⟩, h4⟩, h5⟩, h6⟩, h7⟩, h8⟩, h9⟩,
      h10⟩, h11⟩, h12⟩, h13⟩, h14⟩, h15⟩, h16⟩, h17⟩, h18⟩, h19⟩, h20⟩ := h
    have he : handleUnknownError modelName name message ctorName =
        createGeminiError.apiError message true := by
      simp only [handleUnknownError]
      rw [h1, h2, h3, h4, h5, h6, h7, h8, h9, h10, h11, h12, h13, h14, h15,
        h16, h17, h18, h19, h20]
      rfl
    exact ⟨he, by rw [he]; rfl⟩

/-- Witness: a message containing both an authentication substring and the
later-category substrings "rate", "network" and "timeout" is still
classified non-retryable; a message matching no pattern is retryable. -/
theorem error_classification_first_match_wins_witness :
    (handleUnknownError "gemini-1.5-flash" "Error"
        "Unauthorized: rate limited, network timeout" "Error").retryable = false
    ∧ (handleUnknownError "gemini-1.5-flash" "Error"
        "something unexpected went wrong" "Error").retryable = true :=
  ⟨((error_classification_first_match_wins "gemini-1.5-flash" "Error"
      "Unauthorized: rate limited, network timeout" "Error").1 (by decide)).2,
   ((error_classification_first_match_wins "gemini-1.5-flash" "Error"
      "something unexpected went wrong" "Error").2 (by decide)).2⟩

/-- The challenge-service difficulty function, characterized by integer
thresholds: the exact rational comparison `(hash % 1000) / 1000 < 4/10`
holds iff `hash % 1000 < 400`, and similarly at `800`. -/
theorem getDifficultyForDateService_char (d : String) :
    getDifficultyForDateService d defaultWeights =
      (if hashString d % 1000 < 400 then Difficulty.easy
       else if hashString d % 1000 < 800 then Difficulty.medium
       else Difficulty.hard) := by
  have h4 : ((hashString d % 1000 : ℕ) : ℚ) / 1000 < 4 / 10 ↔
      hashString d % 1000 < 400 := natCast_div_lt_of_lt _ 400 _ (by norm_num)
  have h8 : ((hashString d % 1000 : ℕ) : ℚ) / 1000 < 4 / 10 + 4 / 10 ↔
      hashString d % 1000 < 800 := natCast_div_lt_of_lt _ 800 _ (by norm_num)
  simp only [getDifficultyForDateService, defaultWeights]
  rcases Nat.lt_or_ge (hashString d % 1000) 400 with hc | hc
  · rw [if_pos (h4.mpr hc), if_pos hc]
  · rcases Nat.lt_or_ge (hashString d % 1000) 800 with hd | hd
    · rw [if_neg ((not_congr h4).mpr (by omega)), if_pos (h8.mpr hd),
        if_neg (show ¬(hashString d % 1000 < 400) by omega), if_pos hd]
    · rw [if_neg ((not_congr h4).mpr (by omega)),
        if_neg ((not_congr h8).mpr (by omega)),
        if_neg (show ¬(hashString d % 1000 < 400) by omega),
        if_neg (show ¬(hashString d % 1000 < 800) by omega)]

/-- C10 (counterexample): the two date→difficulty functions disagree at the
concrete date `2024-01-01` (`hashString` = 613341632, so the service sees
`632 < 800 → medium` while the orchestrator sees `2 < 4 → easy`), refuting
the claim that they are extensionally equal. -/
theorem difficulty_functions_disagree_on_20240101 :
    getDifficultyForDateService "2024-01-01" defaultWeights = Difficulty.medium ∧
      getDifficultyForDate "2024-01-01" = Difficulty.easy := by
  rw [getDifficultyForDateService_char]
  constructor <;> decide

/-- C10 (amended): both functions reduce the same absolute 32-bit hash of
the date, but with different bucketings — the challenge service buckets
`hash % 1000` by `[0,400) → easy`, `[400,800) → medium`, `[800,1000) → hard`
while the orchestrator buckets `hash % 10` by `[0,4) / [4,8) / [8,10)` — and
the two are not extensionally equal: they disagree at `2024-01-01`. -/
theorem difficulty_functions_characterized_and_not_equal :
    (∀ d, getDifficultyForDateService d defaultWeights =
        (if hashString d % 1000 < 400 then Difficulty.easy
         else if hashString d % 1000 < 800 then Difficulty.medium
         else Difficulty.hard))
    ∧ (∀ d, getDifficultyForDate d =
        (if hashString d % 10 < 4 then Difficulty.easy
         else if hashString d % 10 < 8 then Difficulty.medium
         else Difficulty.hard))
    ∧ getDifficultyForDateService "2024-01-01" defaultWeights ≠
        getDifficultyForDate "2024-01-01" := by
  refine ⟨fun d => getDifficultyForDateService_char d, fun d => rfl, ?_⟩
  rw [getDifficultyForDateService_char]
  decide

/-- Loop invariant for C1: when every outcome is a retryable failure, the
loop performs exactly the remaining budget of attempts and ends in an
error. -/
theorem genLoop_all_retryable_fail (env : OrchestratorEnv) (d : String)
    (diff : Difficulty) (retries : Nat)
    (hen : env.geminiEnabled = true)
    (hfail : ∀ i, ∃ g, env.outcomes i = .err g ∧ isRetryableError g = true) :
    ∀ rem ac last, ac + rem = retries + 1 →
      (genLoop env d diff retries rem ac last).1 = retries + 1 ∧
      ∃ e, (genLoop env d diff retries rem ac last).2 = .error e := by
  intro rem
  induction rem with
  | zero =>
    intro ac last hsum
    refine ⟨?_, ⟨_, rfl⟩⟩
    simp only [genLoop]
    omega
  | succ n ih =>
    intro ac last hsum
    obtain ⟨g, hg, hr⟩ := hfail ac
    have hout : (if env.geminiEnabled then env.outcomes ac
        else .err (.plain "Error" "No AI services available" "Error")) = .err g := by
      rw [hen, if_pos rfl]
      exact hg
    have hstep : genLoop env d diff retries (n + 1) ac last =
        (if decide (ac + 1 ≤ retries) && isRetryableError g then
          genLoop env d diff retries n (ac + 1) (some g)
        else (ac + 1, .error g)) := by
      simp only [genLoop]
      rw [hout]
    rw [hstep, hr, Bool.and_true]
    by_cases hle : ac + 1 ≤ retries
    · rw [decide_eq_true hle, if_pos rfl]
      exact ih (ac + 1) (some g) (by omega)
    · rw [decide_eq_false hle, if_neg (by simp)]
      exact ⟨by show ac + 1 = retries + 1; omega, ⟨g, rfl⟩⟩

/-- C1: with every attempt failing retryably, `generateWithRetries` with
budget `r` performs exactly `r + 1` attempts and then gives up with an
error; and on the injected sequence RateLimit, RateLimit, Network, success
with budget 3 it performs exactly 4 attempts and returns a result tagged
`generatedBy = gemini`. -/
theorem retries_exhaust_budget_then_succeed
    (env : OrchestratorEnv) (d : String) (diff : Difficulty) (r : Nat)
    (hen : env.geminiEnabled = true)
    (hfail : ∀ i, ∃ g, env.outcomes i = .err g ∧ isRetryableError g = true) :
    ((generateWithRetries env d diff r).1 = r + 1 ∧
      ∃ e, (generateWithRetries env d diff r).2 = .error e)
    ∧ ((generateWithRetries envInjected "2024-01-01" Difficulty.easy 3).1 = 4 ∧
      ∃ res, (generateWithRetries envInjected "2024-01-01" Difficulty.easy 3).2 =
          .ok res ∧ res.generatedBy = GeneratedBy.gemini) := by
  refine ⟨genLoop_all_retryable_fail env d diff r hen hfail (r + 1) 0 none
    (by omega), rfl, ⟨_, rfl, rfl⟩⟩

/-- Witness for C1 at budget 2 with every attempt rate-limited. -/
theorem retries_exhaust_budget_then_succeed_witness :
    ((generateWithRetries envAllRateLimited "2024-01-01" Difficulty.easy 2).1 =
        2 + 1 ∧
      ∃ e, (generateWithRetries envAllRateLimited "2024-01-01" Difficulty.easy
          2).2 = .error e)
    ∧ ((generateWithRetries envInjected "2024-01-01" Difficulty.easy 3).1 = 4 ∧
      ∃ res, (generateWithRetries envInjected "2024-01-01" Difficulty.easy 3).2 =
          .ok res ∧ res.generatedBy = GeneratedBy.gemini) :=
  retries_exhaust_budget_then_succeed envAllRateLimited "2024-01-01"
    Difficulty.easy 2 rfl
    (fun _ => ⟨.gemini (createGeminiError.rateLimit none), rfl, rfl⟩)

/-- C2: when the first attempt throws a non-retryable error, the retry loop
performs exactly one attempt, and `generateTodaysChallenge` (with fallback
enabled) returns the static fallback, tagged `source = static`. -/
theorem nonretryable_first_attempt_falls_back
    (env : OrchestratorEnv) (d : String) (diff : Difficulty) (r : Nat)
    (e0 : JsError) (hr : 1 ≤ r)
    (hen : env.geminiEnabled = true) (hfb : env.enableFallback = true)
    (h0 : env.outcomes 0 = .err e0) (hnr : isRetryableError e0 = false) :
    (generateWithRetries env d diff r).1 = 1 ∧
    (generateTodaysChallenge env d diff r).1 = 1 ∧
    ∃ res, (generateTodaysChallenge env d diff r).2 = .ok res ∧
      res.generatedBy = GeneratedBy.static := by
  have hout0 : (if env.geminiEnabled then env.outcomes 0
      else .err (.plain "Error" "No AI services available" "Error")) = .err e0 := by
    rw [hen, if_pos rfl]
    exact h0
  have hgwr : generateWithRetries env d diff r = (1, .error e0) := by
    unfold generateWithRetries
    simp only [genLoop]
    rw [hout0]
    simp only [hnr, Bool.and_false]
    rfl
  have hgtc : generateTodaysChallenge env d diff r =
      (1, staticToJs (generateStaticFallback d diff)) := by
    unfold generateTodaysChallenge
    rw [hen, hgwr, hfb]
    rfl
  obtain ⟨sc, _, _, hsf⟩ := generateStaticFallback_spec d diff
  refine ⟨by rw [hgwr], by rw [hgtc], ?_⟩
  rw [hgtc, hsf]
  exact ⟨_, rfl, rfl⟩

/-- Witness for C2: an authentication failure (classified non-retryable by
`handleUnknownError`) with budget 2 makes exactly one attempt and falls back
to a static result. -/
theorem nonretryable_first_attempt_falls_back_witness :
    (generateWithRetries envAuthClassified "2024-01-01" Difficulty.easy 2).1 = 1 ∧
    (generateTodaysChallenge envAuthClassified "2024-01-01" Difficulty.easy 2).1 = 1 ∧
    ∃ res, (generateTodaysChallenge envAuthClassified "2024-01-01"
        Difficulty.easy 2).2 = .ok res ∧
      res.generatedBy = GeneratedBy.static :=
  nonretryable_first_attempt_falls_back envAuthClassified "2024-01-01"
    Difficulty.easy 2
    (.gemini (handleUnknownError "gemini-1.5-flash" "Error"
      "Request failed: authentication required" "Error"))
    (by decide) rfl rfl rfl (by decide)

/-! ### Schema inversion lemmas -/

theorem zBoundedString_ok_inv {o : Option Json} {mn mx : Nat}
    {m1 m2 m3 : String} {s : String}
    (h : zBoundedString o mn mx m1 m2 m3 = .ok s) :
    o = some (.str s) ∧ mn ≤ s.length ∧ s.length ≤ mx ∧
      (jsTrimList s.data).isEmpty = false := by
  unfold zBoundedString at h
  split at h
  · split_ifs at h with h1 h2 h3
    all_goals try exact Except.noConfusion h
    injection h with hs
    subst hs
    exact ⟨rfl, by omega, by omega, by simpa using h3⟩
  · exact absurd h (by simp)
  · exact absurd h (by simp)

theorem schemaParse_ok_bounds {j : Json} {g : GeminiChallengeResponse}
    (h : schemaParse j = .ok g) :
    (10 ≤ g.startingContent.length ∧ g.startingContent.length ≤ 1000 ∧
      (jsTrimList g.startingContent.data).isEmpty = false) ∧
    (10 ≤ g.content.length ∧ g.content.length ≤ 1000 ∧
      (jsTrimList g.content.data).isEmpty = false) ∧
    (5 ≤ g.title.length ∧ g.title.length ≤ 100 ∧
      (jsTrimList g.title.data).isEmpty = false) ∧
    (∀ e, g.explanation = some e → e.length ≤ 500) := by
  unfold schemaParse at h
  split at h
  · split at h
    · exact absurd h (by simp)
    · rename_i sc hsc
      split at h
      · exact absurd h (by simp)
      · rename_i c hc
        split at h
        · exact absurd h (by simp)
        · rename_i t ht
          obtain ⟨_, hsc2, hsc3, hsc4⟩ := zBoundedString_ok_inv hsc
          obtain ⟨_, hc2, hc3, hc4⟩ := zBoundedString_ok_inv hc
          obtain ⟨_, ht2, ht3, ht4⟩ := zBoundedString_ok_inv ht
          split at h
          · injection h with hg
            subst hg
            exact ⟨⟨hsc2, hsc3, hsc4⟩, ⟨hc2, hc3, hc4⟩, ⟨ht2, ht3, ht4⟩,
              fun e he => by simp at he⟩
          · rename_i ex _
            split_ifs at h with hlen
            all_goals try exact Except.noConfusion h
            injection h with hg
            subst hg
            refine ⟨⟨hsc2, hsc3, hsc4⟩, ⟨hc2, hc3, hc4⟩,
              ⟨ht2, ht3, ht4⟩, fun e he => ?_⟩
            simp at he
            subst he
            omega
          · exact absurd h (by simp)
  · exact absurd h (by simp)

/-- C7: every successfully parsed response satisfies the field bounds
(title 5–100, content and startingContent 10–1000, explanation at most
500), and every `parseResponse` failure is classified `INVALID_RESPONSE`
and retryable — an out-of-bounds payload can therefore never be returned. -/
theorem parse_enforces_field_bounds :
    (∀ text r, parseResponse text = .ok r →
      (5 ≤ r.title.length ∧ r.title.length ≤ 100) ∧
      (10 ≤ r.content.length ∧ r.content.length ≤ 1000) ∧
      (10 ≤ r.startingContent.length ∧ r.startingContent.length ≤ 1000) ∧
      (∀ e, r.explanation = some e → e.length ≤ 500))
    ∧ (∀ text e, parseResponse text = .error e →
        e.code = GeminiErrorCode.INVALID_RESPONSE ∧ e.retryable = true) := by
  constructor
  · intro text r h
    have hp : parseResponsePipeline text = .ok r := by
      unfold parseResponse at h
      split at h
      · rename_i v heq
        injection h with hv
        subst hv
        exact heq
      · exact absurd h (by simp)
    unfold parseResponsePipeline pipelineAfter at hp
    split at hp
    · exact absurd hp (by simp)
    · split at hp
      · exact absurd hp (by simp)
      · obtain ⟨hsc, hc, ht, hex⟩ := schemaParse_ok_bounds hp
        exact ⟨⟨ht.1, ht.2.1⟩, ⟨hc.1, hc.2.1⟩, ⟨hsc.1, hsc.2.1⟩, hex⟩
  · intro text e h
    unfold parseResponse at h
    split at h
    · exact absurd h (by simp)
    · rename_i m heq
      injection h with he
      subst he
      exact ⟨rfl, rfl⟩

/-- Witness for C7: the in-bounds payload decodes with its title length in
bounds; the short-title payload fails with an `INVALID_RESPONSE` error. -/
theorem parse_enforces_field_bounds_witness :
    (∃ r, parseResponse goodPayload = .ok r ∧
      5 ≤ r.title.length ∧ r.title.length ≤ 100) ∧
    (∃ e, parseResponse shortTitlePayload = .error e ∧
      e.code = GeminiErrorCode.INVALID_RESPONSE) :=
  ⟨⟨{ startingContent := "let aa = 111;", content := "let a = 1111;",
      title := "Edit the number", explanation := none }, rfl,
    (parse_enforces_field_bounds.1 goodPayload _ rfl).1⟩,
   ⟨createGeminiError.invalidResponse shortTitlePayload
      (some "Title must be at least 5 characters"), rfl,
    (parse_enforces_field_bounds.2 shortTitlePayload _ rfl).1⟩⟩

/-- C6 (counterexample): a shape-valid payload whose `content` string
contains a fenced-block marker parses successfully when wrapped in a tagged
or bare fence, but the raw unfenced text fails (strategy 3 extracts the
interior of the in-string fence, which is not JSON) — refuting "all three
wrappings succeed with the identical decoded value" for every shape-valid
payload. -/
theorem parser_wrappings_disagree :
    exceptIsOk (parseResponse ("```json\n" ++ trickyPayload ++ "\n```")) = true ∧
    exceptIsOk (parseResponse ("```\n" ++ trickyPayload ++ "\n```")) = true ∧
    exceptIsOk (parseResponse trickyPayload) = false :=
  ⟨rfl, rfl, rfl⟩

/-! ### String-combinatorics lemmas for the extraction strategies -/

theorem lpre_append_self (pat r : List Char) : lpre pat (pat ++ r) = true := by
  induction pat with
  | nil => rfl
  | cons a as ih => simp [lpre, ih]

theorem lpre_self (pat : List Char) : lpre pat pat = true := by
  simpa using lpre_append_self pat []

theorem splitOnFirst_atStart {pat s : List Char} (h : lpre pat s = true) :
    splitOnFirst pat s = some ([], s.drop pat.length) := by
  cases s with
  | nil => unfold splitOnFirst; rw [if_pos h]
  | cons c cs => unfold splitOnFirst; rw [if_pos h]

theorem splitOnFirst_none {pat s : List Char}
    (h : ∀ q, q <:+ s → lpre pat q = false) :
    splitOnFirst pat s = none := by
  induction s with
  | nil =>
    unfold splitOnFirst
    rw [if_neg (by simp [h [] (List.suffix_refl _)])]
  | cons c cs ih =>
    unfold splitOnFirst
    rw [if_neg (by simp [h (c :: cs) (List.suffix_refl _)]),
      ih (fun q hq => h q (hq.trans (List.suffix_cons c cs)))]

theorem splitOnFirst_append (pat mid tail : List Char)
    (hpre : lpre pat tail = true)
    (hno : ∀ q, q <:+ mid → q ≠ [] → lpre pat (q ++ tail) = false) :
    splitOnFirst pat (mid ++ tail) = some (mid, tail.drop pat.length) := by
  induction mid with
  | nil => simpa using splitOnFirst_atStart hpre
  | cons c cs ih =>
    have hcc : lpre pat ((c :: cs) ++ tail) = false :=
      hno (c :: cs) (List.suffix_refl _) (by simp)
    show splitOnFirst pat (c :: (cs ++ tail)) = _
    unfold splitOnFirst
    rw [if_neg (show ¬(lpre pat (c :: (cs ++ tail)) = true) by
        rw [← List.cons_append, hcc]; simp),
      ih (fun q hq hne => hno q (hq.trans (List.suffix_cons c cs)) hne)]

theorem suffix_append_cases {q x y : List Char} (h : q <:+ x ++ y) :
    q <:+ y ∨ ∃ t, t <:+ x ∧ t ≠ [] ∧ q = t ++ y := by
  induction x with
  | nil => left; simpa using h
  | cons a xs ih =>
    rcases List.suffix_cons_iff.mp h with rfl | h2
    · right; exact ⟨a :: xs, List.suffix_refl _, by simp, by simp⟩
    · rcases ih h2 with h3 | ⟨t, ht, hne, rfl⟩
      · left; exact h3
      · right; exact ⟨t, ht.trans (List.suffix_cons a xs), hne, rfl⟩

theorem tick_head_false {a : Char} {l : List Char} (ha : a ≠ '\x60')
    (pat' : List Char) : lpre ('\x60' :: pat') (a :: l) = false := by
  have hf : ('\x60' == a) = false := beq_eq_false_iff_ne.mpr (Ne.symm ha)
  simp [lpre, hf]

theorem splitOnFirst_tick_none {pat' s : List Char}
    (h : ∀ c ∈ s, c ≠ '\x60') :
    splitOnFirst ('\x60' :: pat') s = none := by
  apply splitOnFirst_none
  intro q hq
  cases q with
  | nil => rfl
  | cons a as => exact tick_head_false (h a (hq.subset (by simp))) pat'

theorem suffix_nlfence {t : List Char}
    (h : t <:+ ['\n', '\x60', '\x60', '\x60']) :
    t = ['\n', '\x60', '\x60', '\x60'] ∨ t = ['\x60', '\x60', '\x60'] ∨ t = ['\x60', '\x60'] ∨
      t = ['\x60'] ∨ t = [] := by
  rcases List.suffix_cons_iff.mp h with rfl | h
  · exact Or.inl rfl
  rcases List.suffix_cons_iff.mp h with rfl | h
  · exact Or.inr (Or.inl rfl)
  rcases List.suffix_cons_iff.mp h with rfl | h
  · exact Or.inr (Or.inr (Or.inl rfl))
  rcases List.suffix_cons_iff.mp h with rfl | h
  · exact Or.inr (Or.inr (Or.inr (Or.inl rfl)))
  · exact Or.inr (Or.inr (Or.inr (Or.inr (List.suffix_nil.mp h))))

theorem suffix_gfence {t : List Char}
    (h : t <:+ ['\x60', '\x60', '\x60', '\n']) :
    t = ['\x60', '\x60', '\x60', '\n'] ∨ t = ['\x60', '\x60', '\n'] ∨ t = ['\x60', '\n'] ∨
      t = ['\n'] ∨ t = [] := by
  rcases List.suffix_cons_iff.mp h with rfl | h
  · exact Or.inl rfl
  rcases List.suffix_cons_iff.mp h with rfl | h
  · exact Or.inr (Or.inl rfl)
  rcases List.suffix_cons_iff.mp h with rfl | h
  · exact Or.inr (Or.inr (Or.inl rfl))
  rcases List.suffix_cons_iff.mp h with rfl | h
  · exact Or.inr (Or.inr (Or.inr (Or.inl rfl)))
  · exact Or.inr (Or.inr (Or.inr (Or.inr (List.suffix_nil.mp h))))

theorem lpre_nlfence_false (pd : List Char) (hnt : ∀ c ∈ pd, c ≠ '\x60') :
    ∀ q, q <:+ pd → q ≠ [] → lpre "\n```".data (q ++ "\n```".data) = false := by
  intro q hq hne
  match q, hne with
  | a :: as, _ =>
    cases as with
    | nil => simp [lpre]
    | cons b bs =>
      have hb : b ∈ pd := hq.subset (by simp)
      have hbf : ('\x60' == b) = false := beq_eq_false_iff_ne.mpr (Ne.symm (hnt b hb))
      simp [lpre, hbf]

theorem firstTruthy_cons_none (rest : List (Option (List Char))) :
    firstTruthy (none :: rest) = firstTruthy rest := rfl

theorem firstTruthy_cons_some {x : List Char} (rest : List (Option (List Char)))
    (hne : x ≠ []) : firstTruthy (some x :: rest) = x := by
  cases x with
  | nil => exact absurd rfl hne
  | cons a as => rfl

theorem strat1_tagged (pd : List Char) (hnt : ∀ c ∈ pd, c ≠ '\x60') :
    strat1 ("```json\n".data ++ (pd ++ "\n```".data)) = some pd := by
  unfold strat1
  have e1 : splitOnFirst "```json\n".data
      ("```json\n".data ++ (pd ++ "\n```".data)) =
      some ([], pd ++ "\n```".data) := by
    rw [splitOnFirst_atStart (lpre_append_self "```json\n".data
      (pd ++ "\n```".data)), List.drop_left]
  have e2 : splitOnFirst "\n```".data (pd ++ "\n```".data) =
      some (pd, List.drop "\n```".data.length "\n```".data) := by
    rw [splitOnFirst_append "\n```".data pd "\n```".data (lpre_self _)
      (lpre_nlfence_false pd hnt)]
  simp only [e1, e2]

theorem strat2_bare (pd : List Char) (hnt : ∀ c ∈ pd, c ≠ '\x60') :
    strat2 ("```\n".data ++ (pd ++ "\n```".data)) = some pd := by
  unfold strat2
  have e1 : splitOnFirst "```\n".data
      ("```\n".data ++ (pd ++ "\n```".data)) =
      some ([], pd ++ "\n```".data) := by
    rw [splitOnFirst_atStart (lpre_append_self "```\n".data
      (pd ++ "\n```".data)), List.drop_left]
  have e2 : splitOnFirst "\n```".data (pd ++ "\n```".data) =
      some (pd, List.drop "\n```".data.length "\n```".data) := by
    rw [splitOnFirst_append "\n```".data pd "\n```".data (lpre_self _)
      (lpre_nlfence_false pd hnt)]
  simp only [e1, e2]

theorem strat1_bare (pd : List Char) (hnt : ∀ c ∈ pd, c ≠ '\x60') :
    strat1 ("```\n".data ++ (pd ++ "\n```".data)) = none := by
  unfold strat1
  rw [splitOnFirst_none ?hall]
  case hall =>
    intro q hq
    rcases suffix_append_cases hq with hq2 | ⟨t, ht, htne, rfl⟩
    · rcases suffix_append_cases hq2 with hq3 | ⟨t', ht', htne', rfl⟩
      · rcases suffix_nlfence hq3 with rfl | rfl | rfl | rfl | rfl <;> rfl
      · match t', htne' with
        | a :: as, _ =>
          exact tick_head_false (hnt a (ht'.subset (by simp))) _
    · rcases suffix_gfence ht with rfl | rfl | rfl | rfl | rfl
      · simp [lpre]
      · simp [lpre]
      · simp [lpre]
      · simp [lpre]
      · exact absurd rfl htne

theorem strat1_raw (pd : List Char) (hnt : ∀ c ∈ pd, c ≠ '\x60') :
    strat1 pd = none := by
  unfold strat1
  have h1 : splitOnFirst "```json\n".data pd = none := by
    have he : "```json\n".data = '\x60' :: "``json\n".data := rfl
    rw [he]
    exact splitOnFirst_tick_none hnt
  rw [h1]

theorem strat2_raw (pd : List Char) (hnt : ∀ c ∈ pd, c ≠ '\x60') :
    strat2 pd = none := by
  unfold strat2
  have h1 : splitOnFirst "```\n".data pd = none := by
    have he : "```\n".data = '\x60' :: "``\n".data := rfl
    rw [he]
    exact splitOnFirst_tick_none hnt
  rw [h1]

theorem strat3_raw (pd : List Char) (hnt : ∀ c ∈ pd, c ≠ '\x60') :
    strat3 pd = none := by
  unfold strat3
  have h1 : splitOnFirst "```json".data pd = none := by
    have he : "```json".data = '\x60' :: "``json".data := rfl
    rw [he]
    exact splitOnFirst_tick_none hnt
  rw [h1]

theorem ws_not_rbrace {a : Char} (h : jsWs a = true) :
    ('\x7d' == a) = false := by
  rw [beq_eq_false_iff_ne]
  rintro rfl
  simp [jsWs] at h

theorem ws_not_lbrace {a : Char} (h : jsWs a = true) :
    ('\x7b' == a) = false := by
  rw [beq_eq_false_iff_ne]
  rintro rfl
  simp [jsWs] at h

theorem strat4_decomp (w1 v w2 : List Char)
    (hw1 : ∀ c ∈ w1, jsWs c = true) (hw2 : ∀ c ∈ w2, jsWs c = true) :
    strat4 (w1 ++ ('\x7b' :: v ++ ['\x7d']) ++ w2) =
      some ('\x7b' :: v ++ ['\x7d']) := by
  unfold strat4
  have hsrev : (w1 ++ ('\x7b' :: v ++ ['\x7d']) ++ w2).reverse =
      w2.reverse ++ (('\x7d' :: (v.reverse ++ ['\x7b'])) ++ w1.reverse) := by
    simp
  have e1 : splitOnFirst ['\x7d']
      (w1 ++ ('\x7b' :: v ++ ['\x7d']) ++ w2).reverse =
      some (w2.reverse, (v.reverse ++ ['\x7b']) ++ w1.reverse) := by
    rw [hsrev,
      splitOnFirst_append ['\x7d'] w2.reverse
        (('\x7d' :: (v.reverse ++ ['\x7b'])) ++ w1.reverse)
        (by simp [lpre])
        (fun q hq hne => by
          match q, hne with
          | a :: as, _ =>
            have ha : jsWs a = true :=
              hw2 a (by simpa using hq.subset (by simp))
            simp [lpre, ws_not_rbrace ha])]
    simp
  have e2 : splitOnFirst ['\x7b']
      (((v.reverse ++ ['\x7b']) ++ w1.reverse)).reverse = some (w1, v) := by
    have hrev2 : (((v.reverse ++ ['\x7b']) ++ w1.reverse)).reverse =
        w1 ++ ('\x7b' :: v) := by
      simp
    rw [hrev2,
      splitOnFirst_append ['\x7b'] w1 ('\x7b' :: v)
        (by simp [lpre])
        (fun q hq hne => by
          match q, hne with
          | a :: as, _ =>
            have ha : jsWs a = true := hw1 a (hq.subset (by simp))
            simp [lpre, ws_not_lbrace ha])]
    simp
  simp only [e1, e2]
  simp

theorem jsTrim_decomp (l : List Char) :
    ∃ w1 w2, l = w1 ++ jsTrimList l ++ w2 ∧
      (∀ c ∈ w1, jsWs c = true) ∧ (∀ c ∈ w2, jsWs c = true) := by
  refine ⟨l.takeWhile jsWs,
    ((l.dropWhile jsWs).reverse.takeWhile jsWs).reverse, ?_,
    fun c hc => List.mem_takeWhile_imp hc,
    fun c hc => List.mem_takeWhile_imp (List.mem_reverse.mp hc)⟩
  conv_lhs => rw [← List.takeWhile_append_dropWhile (p := jsWs) (l := l)]
  rw [List.append_assoc]
  congr 1
  unfold jsTrimList
  generalize l.dropWhile jsWs = d
  have h2 : d.reverse = d.reverse.takeWhile jsWs ++ d.reverse.dropWhile jsWs :=
    (List.takeWhile_append_dropWhile _ _).symm
  calc d = d.reverse.reverse := (List.reverse_reverse d).symm
    _ = (d.reverse.takeWhile jsWs ++ d.reverse.dropWhile jsWs).reverse := by
        rw [← h2]
    _ = (d.reverse.dropWhile jsWs).reverse ++
        (d.reverse.takeWhile jsWs).reverse := by
        rw [List.reverse_append]

theorem jsTrimList_braced (v : List Char) :
    jsTrimList ('\x7b' :: v ++ ['\x7d']) = '\x7b' :: v ++ ['\x7d'] := by
  have h7b : jsWs '\x7b' = false := rfl
  have h7d : jsWs '\x7d' = false := rfl
  unfold jsTrimList
  simp only [List.cons_append]
  have hd1 : ('\x7b' :: (v ++ ['\x7d'])).dropWhile jsWs =
      '\x7b' :: (v ++ ['\x7d']) := by
    rw [List.dropWhile_cons, h7b]
    simp
  rw [hd1]
  have hrev : ('\x7b' :: (v ++ ['\x7d'])).reverse =
      '\x7d' :: (v.reverse ++ ['\x7b']) := by
    simp
  rw [hrev]
  have hd2 : ('\x7d' :: (v.reverse ++ ['\x7b'])).dropWhile jsWs =
      '\x7d' :: (v.reverse ++ ['\x7b']) := by
    rw [List.dropWhile_cons, h7d]
    simp
  rw [hd2]
  simp

theorem strat4_of_trim (pd v : List Char)
    (htrim : jsTrimList pd = '\x7b' :: v ++ ['\x7d']) :
    strat4 pd = some ('\x7b' :: v ++ ['\x7d']) := by
  obtain ⟨w1, w2, hdec, hw1, hw2⟩ := jsTrim_decomp pd
  rw [htrim] at hdec
  rw [show pd = w1 ++ ('\x7b' :: v ++ ['\x7d']) ++ w2 from hdec]
  exact strat4_decomp w1 v w2 hw1 hw2

theorem extractStep_tagged (pd v : List Char) (hnt : ∀ c ∈ pd, c ≠ '\x60')
    (hne : pd ≠ [])
    (htrim : jsTrimList pd = '\x7b' :: v ++ ['\x7d']) :
    extractStep ("```json\n".data ++ (pd ++ "\n```".data)) =
      '\x7b' :: v ++ ['\x7d'] := by
  unfold extractStep
  rw [strat1_tagged pd hnt, firstTruthy_cons_some _ hne]
  exact htrim

theorem extractStep_bare (pd v : List Char) (hnt : ∀ c ∈ pd, c ≠ '\x60')
    (hne : pd ≠ [])
    (htrim : jsTrimList pd = '\x7b' :: v ++ ['\x7d']) :
    extractStep ("```\n".data ++ (pd ++ "\n```".data)) =
      '\x7b' :: v ++ ['\x7d'] := by
  unfold extractStep
  rw [strat1_bare pd hnt, strat2_bare pd hnt, firstTruthy_cons_none,
    firstTruthy_cons_some _ hne]
  exact htrim

theorem extractStep_raw (pd v : List Char) (hnt : ∀ c ∈ pd, c ≠ '\x60')
    (htrim : jsTrimList pd = '\x7b' :: v ++ ['\x7d']) :
    extractStep pd = '\x7b' :: v ++ ['\x7d'] := by
  unfold extractStep
  rw [strat1_raw pd hnt, strat2_raw pd hnt, strat3_raw pd hnt,
    strat4_of_trim pd v htrim, firstTruthy_cons_none, firstTruthy_cons_none,
    firstTruthy_cons_none, firstTruthy_cons_some _ (by simp)]
  exact jsTrimList_braced v

/-- For a payload that contains no backtick and whose trimmed form is a
brace-delimited object text, the five extraction strategies select the same
JSON text on the raw payload, the json-tagged fenced wrapping and the bare
fenced wrapping, so the whole parse pipeline is oblivious to the wrapping:
it gives the identical outcome on all three — but universal success is not
part of the invariant, because the trailing-comma cleanup can corrupt a
shape-valid payload (see `commaPayload`). -/
theorem cleanup_can_defeat_all_wrappings :
    (jsonParse commaPayload).isSome = true ∧
    (match jsonParse commaPayload with
     | some j => exceptIsOk (schemaParse j)
     | none => false) = true ∧
    commaPayload.data.all (fun c => c != '\x60') = true ∧
    exceptIsOk (parseResponse commaPayload) = false ∧
    exceptIsOk (parseResponse ("```json\n" ++ commaPayload ++ "\n```")) = false ∧
    exceptIsOk (parseResponse ("```\n" ++ commaPayload ++ "\n```")) = false := by
  refine ⟨rfl, rfl, by decide, rfl, rfl, rfl⟩

/-- C6 (amended): for a payload that contains no backtick character and
whose trimmed form is a brace-delimited object text, the json-tagged fenced
wrapping, the bare fenced wrapping and the raw text are extracted to the
same JSON text, so the parse pipeline produces the identical outcome on all
three — the same decoded challenge when it succeeds and the same parse
error when it fails; in particular, whenever the raw parse succeeds, both
fenced wrappings succeed with the identical decoded challenge.  (The
strategies are tried in the fixed source order — tagged fence, generic
fence, fence without newlines, outermost brace span, raw text — stopping at
the first truthy extraction, which these proofs walk through literally.)
The backtick restriction is what the counterexample shows to be necessary,
and the invariant is outcome-equality rather than universal success:
`cleanup_can_defeat_all_wrappings` exhibits a backtick-free shape-valid
payload on which all three parses fail identically. -/
theorem parse_wrapping_invariant (p : String)
    (hb : p.data.all (fun c => c != '\x60') = true)
    (hhead : (jsTrimList p.data).head? = some '\x7b')
    (hlast : (jsTrimList p.data).getLast? = some '\x7d') :
    (parseResponsePipeline ("```json\n" ++ p ++ "\n```") =
        parseResponsePipeline p ∧
      parseResponsePipeline ("```\n" ++ p ++ "\n```") =
        parseResponsePipeline p) ∧
    ∀ v : GeminiChallengeResponse, parseResponse p = .ok v →
      parseResponse ("```json\n" ++ p ++ "\n```") = .ok v ∧
        parseResponse ("```\n" ++ p ++ "\n```") = .ok v := by
  have hnt : ∀ c ∈ p.data, c ≠ '\x60' := by
    intro c hc
    simpa using List.all_eq_true.mp hb c hc
  obtain ⟨mid, hmid⟩ : ∃ mid, jsTrimList p.data = '\x7b' :: mid ++ ['\x7d'] := by
    obtain ⟨l', hl'⟩ := List.getLast?_eq_some_iff.mp hlast
    cases hl2 : l' with
    | nil =>
      rw [hl2] at hl'
      rw [hl'] at hhead
      simp at hhead
    | cons x xs =>
      rw [hl2] at hl'
      rw [hl'] at hhead
      simp at hhead
      exact ⟨xs, by rw [hl', hhead]⟩
  have hpdne : p.data ≠ [] := by
    intro he
    rw [he] at hmid
    simp [jsTrimList] at hmid
  have hdT : ("```json\n" ++ p ++ "\n```").data =
      "```json\n".data ++ (p.data ++ "\n```".data) := by
    simp [String.data_append]
  have hdB : ("```\n" ++ p ++ "\n```").data =
      "```\n".data ++ (p.data ++ "\n```".data) := by
    simp [String.data_append]
  have hPT : parseResponsePipeline ("```json\n" ++ p ++ "\n```") =
      parseResponsePipeline p := by
    unfold parseResponsePipeline
    rw [hdT, extractStep_tagged p.data mid hnt hpdne hmid,
      extractStep_raw p.data mid hnt hmid]
  have hPB : parseResponsePipeline ("```\n" ++ p ++ "\n```") =
      parseResponsePipeline p := by
    unfold parseResponsePipeline
    rw [hdB, extractStep_bare p.data mid hnt hpdne hmid,
      extractStep_raw p.data mid hnt hmid]
  refine ⟨⟨hPT, hPB⟩, ?_⟩
  intro v hok
  have hr : parseResponsePipeline p = .ok v := by
    unfold parseResponse at hok
    split at hok
    · rename_i w heq
      injection hok with hw
      subst hw
      exact heq
    · exact Except.noConfusion hok
  constructor
  · unfold parseResponse
    rw [hPT, hr]
  · unfold parseResponse
    rw [hPB, hr]

/-- Witness for the wrapping-invariance theorem on a concrete in-bounds
payload: the pipeline outcomes coincide and both fenced wrappings decode to
the same challenge as the raw payload. -/
theorem parse_wrapping_invariant_witness :
    (parseResponsePipeline ("```json\n" ++ goodPayload ++ "\n```") =
      parseResponsePipeline goodPayload) ∧
    parseResponse ("```json\n" ++ goodPayload ++ "\n```") = .ok
      { startingContent := "let aa = 111;", content := "let a = 1111;",
        title := "Edit the number", explanation := none } ∧
    parseResponse ("```\n" ++ goodPayload ++ "\n```") = .ok
      { startingContent := "let aa = 111;", content := "let a = 1111;",
        title := "Edit the number", explanation := none } := by
  have h := parse_wrapping_invariant goodPayload (by decide) (by decide)
    (by decide)
  exact ⟨h.1.1, (h.2 _ rfl).1, (h.2 _ rfl).2⟩

theorem pool_content_bounds (difficulty : Difficulty) :
    ∀ sc ∈ STATIC_CHALLENGE_POOL difficulty,
      10 ≤ sc.content.length ∧ sc.content.length ≤ 1000 ∧ sc.content ≠ "" := by
  cases difficulty <;> decide

/-- C9 (amended): a challenge produced by the static fallback carries no
`startingContent` at all, while its `content` is a non-empty pool entry of
10–1000 characters; a challenge built on the gemini success path carries
`startingContent = some (trim of the schema-validated string)`, which is
non-empty because the schema refinement requires a non-whitespace
string.  (No path checks that `startingContent` differs from `content`.) -/
theorem challenge_startingContent_by_source :
    (∀ d diff r, generateStaticFallback d diff = .ok r →
      r.challenge.startingContent = none ∧
      10 ≤ r.challenge.content.length ∧ r.challenge.content.length ≤ 1000 ∧
      r.challenge.content ≠ "")
    ∧ (∀ (j : Json) (g : GeminiChallengeResponse) (date : String)
        (diff : Difficulty) (ac : Nat) (pu : String) (ms : Nat),
        schemaParse j = .ok g →
        (mkGeminiResult date diff ac
            { response := g, promptUsed := pu,
              generationTimeMs := ms }).challenge.startingContent =
          some (jsTrimStr g.startingContent) ∧
        jsTrimStr g.startingContent ≠ "") := by
  constructor
  · intro d diff r h
    obtain ⟨sc, hmem, _, hrun⟩ := generateStaticFallback_spec d diff
    rw [hrun] at h
    injection h with hr
    subst hr
    obtain ⟨h1, h2, h3⟩ := pool_content_bounds diff sc hmem
    exact ⟨rfl, h1, h2, h3⟩
  · intro j g date diff ac pu ms h
    refine ⟨rfl, ?_⟩
    obtain ⟨⟨_, _, hne⟩, _, _, _⟩ := schemaParse_ok_bounds h
    intro he
    have hdata : jsTrimList g.startingContent.data = [] := by
      have := congrArg String.data he
      simpa [jsTrimStr] using this
    rw [hdata] at hne
    simp at hne

/-- Witness for C9 (amended): the concrete static fallback for `2024-01-01`
easy (pool entry 2, "Simple Loop") has no starting content and in-bounds
content; a concrete schema-validated payload yields a gemini challenge with
the trimmed, non-empty starting content. -/
theorem challenge_startingContent_by_source_witness :
    (∃ r, generateStaticFallback "2024-01-01" Difficulty.easy = .ok r ∧
      r.challenge.startingContent = none ∧ r.challenge.content ≠ "") ∧
    ((mkGeminiResult "2024-01-01" Difficulty.easy 0
        { response :=
            { startingContent := "let aa = 111;", content := "let a = 1111;",
              title := "Edit the number", explanation := none },
          promptUsed := "p", generationTimeMs := 5 }).challenge.startingContent =
      some (jsTrimStr "let aa = 111;") ∧
      jsTrimStr "let aa = 111;" ≠ "") := by
  constructor
  · refine ⟨_, rfl, ?_⟩
    have h := challenge_startingContent_by_source.1 "2024-01-01"
      Difficulty.easy _ rfl
    exact ⟨h.1, h.2.2.2⟩
  · exact challenge_startingContent_by_source.2
      (Json.obj [("startingContent", .str "let aa = 111;"),
        ("content", .str "let a = 1111;"), ("title", .str "Edit the number")])
      { startingContent := "let aa = 111;", content := "let a = 1111;",
        title := "Edit the number", explanation := none }
      "2024-01-01" Difficulty.easy 0 "p" 5 rfl
